import Mathlib

/-!
Verification development for the DOM event responder system
(`src/packages/react-dom/src/events/DOMEventResponderSystem.js`).

The file embeds the responder dispatch engine in two layers:

* a stateless *trace* model of `traverseAndHandleEventResponderInstances`
  and the two discovery functions (`getTargetEventResponderInstances`,
  `getRootEventResponderInstances`), recording which responder instances
  have a phase callback invoked and in which order; and
* a stateful model of the module-level mutable variables
  (`currentOwner`, `currentInstance`, `currentEventQueue`, `currentTimers`,
  `activeTimeouts`, `rootEventTypesToEventComponentInstances`,
  `ownershipChangeListeners`) together with the responder-context
  operations, the timer subsystem, and mount/unmount bookkeeping.

JavaScript `Map`s and `Set`s are embedded as insertion-ordered association
lists; `Symbol()` timer tokens and host `setTimeout` handles are embedded
as counters drawn from the state.  Responder callbacks (`onEvent`,
`onEventCapture`, `onRootEvent`, `onOwnershipChange`, `onUnmount`, timer
callbacks) are opaque to the engine; the embedding records the engine
state they observe (instrumented observations) and does not let them
mutate engine state, mirroring the engine-level bookkeeping the claims
are about.
-/

namespace ResponderSystem

/-! ### Association-list maps (JS `Map` semantics: one entry per key,
insertion-ordered, `set` replaces in place, `delete` removes the key). -/

def lookupA {κ α : Type} [DecidableEq κ] : List (κ × α) → κ → Option α
  | [], _ => none
  | (k, v) :: rest, k' => if k' = k then some v else lookupA rest k'

def setA {κ α : Type} [DecidableEq κ] : List (κ × α) → κ → α → List (κ × α)
  | [], k, v => [(k, v)]
  | (k', v') :: rest, k, v =>
    if k' = k then (k, v) :: rest else (k', v') :: setA rest k v

def eraseA {κ α : Type} [DecidableEq κ] (m : List (κ × α)) (k : κ) :
    List (κ × α) :=
  m.filter (fun p => decide (p.1 ≠ k))

/-- JS `Set.add`: appends the element unless it is already present. -/
def addUniq {α : Type} [DecidableEq α] (l : List α) (a : α) : List α :=
  if a ∈ l then l else l ++ [a]

theorem lookupA_setA_self {κ α : Type} [DecidableEq κ]
    (m : List (κ × α)) (k : κ) (v : α) : lookupA (setA m k v) k = some v := by
  induction m with
  | nil => simp [setA, lookupA]
  | cons p rest ih =>
    obtain ⟨k', v'⟩ := p
    by_cases h : k' = k
    · simp [setA, h, lookupA]
    · have : ¬ k = k' := fun hc => h hc.symm
      simp [setA, h, lookupA, this, ih]

theorem lookupA_setA_ne {κ α : Type} [DecidableEq κ]
    (m : List (κ × α)) (k k' : κ) (v : α) (h : k' ≠ k) :
    lookupA (setA m k v) k' = lookupA m k' := by
  induction m with
  | nil => simp [setA, lookupA, h]
  | cons p rest ih =>
    obtain ⟨k₀, v₀⟩ := p
    by_cases h₀ : k₀ = k
    · subst h₀
      simp [setA, lookupA, h]
    · by_cases hk' : k' = k₀
      · simp [setA, h₀, lookupA, hk']
      · simp [setA, h₀, lookupA, hk', ih]

theorem lookupA_eraseA_self {κ α : Type} [DecidableEq κ]
    (m : List (κ × α)) (k : κ) : lookupA (eraseA m k) k = none := by
  induction m with
  | nil => rfl
  | cons p rest ih =>
    obtain ⟨k₀, v₀⟩ := p
    by_cases h : k₀ = k
    · simpa [eraseA, h] using ih
    · have : ¬ k = k₀ := fun hc => h hc.symm
      simpa [eraseA, h, lookupA, this] using ih

theorem lookupA_eraseA_ne {κ α : Type} [DecidableEq κ]
    (m : List (κ × α)) (k k' : κ) (h : k' ≠ k) :
    lookupA (eraseA m k) k' = lookupA m k' := by
  induction m with
  | nil => rfl
  | cons p rest ih =>
    obtain ⟨k₀, v₀⟩ := p
    by_cases hp : k₀ = k
    · simpa [eraseA, hp, lookupA, h] using ih
    · by_cases hk' : k' = k₀
      · simp [eraseA, hp, lookupA, hk']
      · simpa [eraseA, hp, lookupA, hk'] using ih

/-! ### Event types

`ReactEventResponderEventType` is either a plain string or an object with a
`name` field; every use site extracts the string via
`typeof t === 'string' ? t : t.name`. -/

inductive EventTypeSpec : Type
  | str (s : String)
  | obj (name : String)
  deriving DecidableEq, Repr

def typeName : EventTypeSpec → String
  | .str s => s
  | .obj n => n

/-! ### Layer A: dispatch traces

`Responder` embeds `ReactEventResponder` restricted to the fields the
dispatch path reads; the optional handlers are embedded as `Bool`
("is the handler defined").  `rid` models JS object identity of the
responder definition (the `propagatedEventResponders : Set` is keyed by
that identity).  `Instance` embeds `ReactEventComponentInstance`
restricted to the fields the trace model reads, with `iid` modelling
instance object identity. -/

structure Responder where
  rid : Nat
  targetEventTypes : List EventTypeSpec
  stopLocalPropagation : Bool
  onEventCapture : Bool
  onEvent : Bool
  onRootEvent : Bool
  deriving DecidableEq, Repr

structure Instance where
  iid : Nat
  responder : Responder
  deriving DecidableEq, Repr

/-- One step of the fiber walk in `getTargetEventResponderInstances`:
a fiber on the path from the target up to the root is either an
`EventComponent` fiber whose `stateNode` is a responder instance, or some
other fiber the walk skips over. -/
inductive PathEntry : Type
  | eventComp (inst : Instance)
  | other
  deriving DecidableEq, Repr

/-- `getTargetEventTypes`: the cached set of top-level type names of a
responder's `targetEventTypes` array, here computed directly (the cache in
the source is semantically transparent). -/
def targetTypeNames (l : List EventTypeSpec) : List String :=
  l.map typeName

/-- `getTargetEventResponderInstances`: walk up from the target fiber; at
every `EventComponent` fiber, if the ownership filter passes
(`currentOwner === null || currentOwner === eventComponentInstance`) and
the responder's target event types contain the dispatched type, collect
the instance.  Instances nearer the target come first. -/
def getTargetEventResponderInstances (owner : Option Instance)
    (topLevelType : String) : List PathEntry → List Instance
  | [] => []
  | .other :: rest => getTargetEventResponderInstances owner topLevelType rest
  | .eventComp i :: rest =>
    if (owner = none ∨ owner = some i) ∧
        topLevelType ∈ targetTypeNames i.responder.targetEventTypes then
      i :: getTargetEventResponderInstances owner topLevelType rest
    else
      getTargetEventResponderInstances owner topLevelType rest

/-- Root registry for the trace model: event type name ↦ insertion-ordered
set of registered instances. -/
abbrev RootRegistryA := List (String × List Instance)

/-- `getRootEventResponderInstances`: instances registered for the type,
filtered by the ownership check. -/
def getRootEventResponderInstances (owner : Option Instance)
    (topLevelType : String) (reg : RootRegistryA) : List Instance :=
  ((lookupA reg topLevelType).getD []).filter
    (fun i => decide (owner = none ∨ owner = some i))

/-- One capture/bubble phase loop of
`traverseAndHandleEventResponderInstances` over iteration order `l`, with
`prop` the `propagatedEventResponders` set accumulated so far.
`hasHandler` tells whether the phase's handler (`onEventCapture` resp.
`onEvent`) is defined on a responder.  Returns the instances whose handler
is invoked, in invocation order. -/
def runPhase (hasHandler : Responder → Bool) :
    List Instance → List Responder → List Instance
  | [], _ => []
  | inst :: rest, prop =>
    let r := inst.responder
    if r.stopLocalPropagation then
      if r ∈ prop then
        runPhase hasHandler rest prop
      else
        if hasHandler r then
          inst :: runPhase hasHandler rest (prop ++ [r])
        else
          runPhase hasHandler rest (prop ++ [r])
    else
      if hasHandler r then
        inst :: runPhase hasHandler rest prop
      else
        runPhase hasHandler rest prop

/-- Capture target phase: the loop `for (i = length; i-- > 0; )` iterates
the target-phase list in reverse (farthest-from-target first), with a
fresh `propagatedEventResponders` set. -/
def captureSeq (owner : Option Instance) (topLevelType : String)
    (path : List PathEntry) : List Instance :=
  runPhase (fun r => r.onEventCapture)
    (getTargetEventResponderInstances owner topLevelType path).reverse []

/-- Bubble target phase: forward iteration (nearest-to-target first); the
`propagatedEventResponders` set is cleared between the phases, so the
bubble loop starts from the empty set again. -/
def bubbleSeq (owner : Option Instance) (topLevelType : String)
    (path : List PathEntry) : List Instance :=
  runPhase (fun r => r.onEvent)
    (getTargetEventResponderInstances owner topLevelType path) []

/-- Root phase: every discovered root instance whose `onRootEvent` is
defined is invoked, in registry insertion order; no suppression applies. -/
def rootSeq (owner : Option Instance) (topLevelType : String)
    (reg : RootRegistryA) : List Instance :=
  (getRootEventResponderInstances owner topLevelType reg).filter
    (fun i => i.responder.onRootEvent)

/-- The full invocation trace of one dispatch
(`traverseAndHandleEventResponderInstances`): capture target phase, then
bubble target phase, then root phase.  The model keeps the ownership
slot fixed for the duration of the dispatch (callbacks are opaque and do
not mutate engine state). -/
def dispatchedSeq (owner : Option Instance) (topLevelType : String)
    (path : List PathEntry) (reg : RootRegistryA) : List Instance :=
  captureSeq owner topLevelType path ++ bubbleSeq owner topLevelType path ++
    rootSeq owner topLevelType reg

/-! ### Lemmas about the trace model -/

theorem mem_runPhase (hasHandler : Responder → Bool) (l : List Instance)
    (prop : List Responder) (i : Instance)
    (h : i ∈ runPhase hasHandler l prop) : i ∈ l := by
  induction l generalizing prop with
  | nil => simp [runPhase] at h
  | cons inst rest ih =>
    simp only [runPhase] at h
    split at h
    · split at h
      · exact List.mem_cons_of_mem _ (ih _ h)
      · split at h
        · rcases List.mem_cons.mp h with h' | h'
          · exact h' ▸ List.mem_cons_self _ _
          · exact List.mem_cons_of_mem _ (ih _ h')
        · exact List.mem_cons_of_mem _ (ih _ h)
    · split at h
      · rcases List.mem_cons.mp h with h' | h'
        · exact h' ▸ List.mem_cons_self _ _
        · exact List.mem_cons_of_mem _ (ih _ h')
      · exact List.mem_cons_of_mem _ (ih _ h)

theorem mem_getTarget_of_owner (X : Instance) (t : String)
    (path : List PathEntry) (i : Instance)
    (h : i ∈ getTargetEventResponderInstances (some X) t path) : i = X := by
  induction path with
  | nil => simp [getTargetEventResponderInstances] at h
  | cons e rest ih =>
    cases e with
    | other =>
      simp only [getTargetEventResponderInstances] at h
      exact ih h
    | eventComp j =>
      simp only [getTargetEventResponderInstances] at h
      split at h
      · rename_i hcond
        rcases List.mem_cons.mp h with h' | h'
        · rcases hcond.1 with ho | ho
          · exact absurd ho (by simp)
          · exact h' ▸ (Option.some.inj ho).symm
        · exact ih h'
      · exact ih h

theorem mem_getRoot_of_owner (X : Instance) (t : String)
    (reg : RootRegistryA) (i : Instance)
    (h : i ∈ getRootEventResponderInstances (some X) t reg) : i = X := by
  have := List.of_mem_filter h
  rcases of_decide_eq_true this with hv | hv
  · exact absurd hv (by simp)
  · exact (Option.some.inj hv).symm

/-- Claim C1: for every dispatch performed while the ownership slot holds
instance `X`, no phase callback (`onEventCapture`, `onEvent`,
`onRootEvent`) is invoked on any instance other than `X` — regardless of
which instances' `targetEventTypes` contain the type, which fibers sit on
the target path, and what the root registry holds.  The trace model holds
the owner fixed for the whole dispatch. -/
theorem c1_owner_excludes_other_instances (X : Instance) (t : String)
    (path : List PathEntry) (reg : RootRegistryA) (i : Instance)
    (h : i ∈ dispatchedSeq (some X) t path reg) : i = X := by
  unfold dispatchedSeq at h
  rcases List.mem_append.mp h with htgt | hroot
  · rcases List.mem_append.mp htgt with hcap | hbub
    · unfold captureSeq at hcap
      have := mem_runPhase _ _ _ _ hcap
      exact mem_getTarget_of_owner X t path i (List.mem_reverse.mp this)
    · unfold bubbleSeq at hbub
      exact mem_getTarget_of_owner X t path i (mem_runPhase _ _ _ _ hbub)
  · unfold rootSeq at hroot
    exact mem_getRoot_of_owner X t reg i (List.mem_of_mem_filter hroot)

/-- Sample data used by witnesses. -/
def exResponder : Responder :=
  { rid := 0
    targetEventTypes := [.str "press"]
    stopLocalPropagation := false
    onEventCapture := true
    onEvent := true
    onRootEvent := false }

def exX : Instance := { iid := 0, responder := exResponder }

theorem c1_owner_excludes_other_instances_witness :
    exX ∈ dispatchedSeq (some exX) "press" [PathEntry.eventComp exX] [] ∧
      exX = exX :=
  ⟨by decide, c1_owner_excludes_other_instances exX "press"
    [PathEntry.eventComp exX] [] exX (by decide)⟩

theorem runPhase_filter_of_mem_prop (hasHandler : Responder → Bool)
    (l : List Instance) (prop : List Responder) (r : Responder)
    (hr : r.stopLocalPropagation = true) (hmem : r ∈ prop) :
    (runPhase hasHandler l prop).filter (fun i => decide (i.responder = r)) =
      [] := by
  induction l generalizing prop with
  | nil => simp [runPhase]
  | cons inst rest ih =>
    simp only [runPhase]
    by_cases h1 : inst.responder.stopLocalPropagation
    · simp only [if_pos h1]
      by_cases h2 : inst.responder ∈ prop
      · simp only [if_pos h2]
        exact ih prop hmem
      · have hne : ¬ inst.responder = r := fun hc => h2 (hc ▸ hmem)
        by_cases h3 : hasHandler inst.responder
        · simp only [if_neg h2, if_pos h3, List.filter_cons,
            decide_eq_true_eq, if_neg hne]
          exact ih _ (List.mem_append_left _ hmem)
        · simp only [if_neg h2, if_neg h3]
          exact ih _ (List.mem_append_left _ hmem)
    · simp only [if_neg h1]
      have hne : ¬ inst.responder = r := fun hc => h1 (by rw [hc, hr])
      by_cases h3 : hasHandler inst.responder
      · simp only [if_pos h3, List.filter_cons, decide_eq_true_eq, if_neg hne]
        exact ih prop hmem
      · simp only [if_neg h3]
        exact ih prop hmem

theorem runPhase_filter_first (hasHandler : Responder → Bool)
    (l : List Instance) (prop : List Responder) (r : Responder)
    (hr : r.stopLocalPropagation = true) (hh : hasHandler r = true)
    (hprop : r ∉ prop) :
    (runPhase hasHandler l prop).filter (fun i => decide (i.responder = r)) =
      (l.find? (fun i => decide (i.responder = r))).toList := by
  induction l generalizing prop with
  | nil => simp [runPhase]
  | cons inst rest ih =>
    by_cases hcase : inst.responder = r
    · have hstop : inst.responder.stopLocalPropagation = true := by
        rw [hcase, hr]
      have hmem : inst.responder ∉ prop := by rw [hcase]; exact hprop
      have hhand : hasHandler inst.responder = true := by rw [hcase, hh]
      have hrec := runPhase_filter_of_mem_prop hasHandler rest
        (prop ++ [r]) r hr (by simp)
      simp [runPhase, hstop, hmem, hhand, List.filter_cons, hcase, hr,
        hprop, hh, List.find?]
      intro a ha
      simpa using List.filter_eq_nil_iff.mp hrec a ha
    · simp only [runPhase]
      by_cases h1 : inst.responder.stopLocalPropagation
      · by_cases h2 : inst.responder ∈ prop
        · simp [h1, h2, List.find?, hcase, ih prop hprop]
        · have hprop' : r ∉ prop ++ [inst.responder] := by
            intro hc
            rcases List.mem_append.mp hc with hc | hc
            · exact hprop hc
            · exact hcase (List.mem_singleton.mp hc).symm
          by_cases h3 : hasHandler inst.responder
          · simp [h1, h2, h3, List.filter_cons, hcase, List.find?,
              ih _ hprop']
          · simp [h1, h2, h3, List.find?, hcase, ih _ hprop']
      · by_cases h3 : hasHandler inst.responder
        · simp [h1, h3, List.filter_cons, hcase, List.find?, ih prop hprop]
        · simp [h1, h3, List.find?, hcase, ih prop hprop]

/-- Claim C2: with `stopLocalPropagation` set on a responder definition
`r` whose capture and bubble handlers are both defined, the instances of
`r` that fire in the capture phase are exactly the first instance of `r`
in capture iteration order (farthest from the target, i.e. the first of
the reversed target-phase list), and the instances of `r` that fire in
the bubble phase are exactly the first instance of `r` in bubble
iteration order (nearest the target).  Both phases start from a fresh
`propagatedEventResponders` set — the source clears the set between the
phases — so suppression in capture does not carry into bubble: each
phase independently fires the first instance its own iteration order
encounters. -/
theorem c2_stop_local_propagation_first_only (owner : Option Instance)
    (t : String) (path : List PathEntry) (r : Responder)
    (hr : r.stopLocalPropagation = true) (hcap : r.onEventCapture = true)
    (hbub : r.onEvent = true) :
    (captureSeq owner t path).filter (fun i => decide (i.responder = r)) =
      ((getTargetEventResponderInstances owner t path).reverse.find?
        (fun i => decide (i.responder = r))).toList ∧
    (bubbleSeq owner t path).filter (fun i => decide (i.responder = r)) =
      ((getTargetEventResponderInstances owner t path).find?
        (fun i => decide (i.responder = r))).toList := by
  constructor
  · exact runPhase_filter_first _ _ _ r hr hcap (by simp)
  · exact runPhase_filter_first _ _ _ r hr hbub (by simp)

/-- A responder definition with `stopLocalPropagation` and both target
phase handlers, with two instances `exA` (nearer the target) and `exB`
(farther), used by the C2 witness and the C3 counterexample. -/
def exStopResponder : Responder :=
  { rid := 1
    targetEventTypes := [.str "press"]
    stopLocalPropagation := true
    onEventCapture := true
    onEvent := true
    onRootEvent := false }

def exA : Instance := { iid := 10, responder := exStopResponder }

def exB : Instance := { iid := 11, responder := exStopResponder }

def exPathAB : List PathEntry := [.eventComp exA, .eventComp exB]

theorem c2_stop_local_propagation_first_only_witness :
    (exStopResponder.stopLocalPropagation = true ∧
      exStopResponder.onEventCapture = true ∧
      exStopResponder.onEvent = true) ∧
    ((captureSeq none "press" exPathAB).filter
        (fun i => decide (i.responder = exStopResponder)) =
      ((getTargetEventResponderInstances none "press" exPathAB).reverse.find?
        (fun i => decide (i.responder = exStopResponder))).toList ∧
    (bubbleSeq none "press" exPathAB).filter
        (fun i => decide (i.responder = exStopResponder)) =
      ((getTargetEventResponderInstances none "press" exPathAB).find?
        (fun i => decide (i.responder = exStopResponder))).toList) :=
  ⟨⟨rfl, rfl, rfl⟩,
    c2_stop_local_propagation_first_only none "press" exPathAB
      exStopResponder rfl rfl rfl⟩

/-- Counterexample to claim C3 as stated: with two instances of one
responder definition that sets `stopLocalPropagation`, the capture phase
fires only the farthest instance (`exB`) while the bubble phase fires
only the nearest (`exA`), so the capture invocation sequence is not the
reverse of the bubble invocation sequence. -/
theorem c3_counterexample :
    captureSeq none "press" exPathAB ≠
      (bubbleSeq none "press" exPathAB).reverse := by
  decide

theorem runPhase_no_stop (hasHandler : Responder → Bool) (l : List Instance)
    (prop : List Responder)
    (hl : ∀ i ∈ l, i.responder.stopLocalPropagation = false) :
    runPhase hasHandler l prop = l.filter (fun i => hasHandler i.responder) := by
  induction l generalizing prop with
  | nil => simp [runPhase]
  | cons inst rest ih =>
    have h1 : inst.responder.stopLocalPropagation = false :=
      hl inst (List.mem_cons_self _ _)
    have hrest : ∀ i ∈ rest, i.responder.stopLocalPropagation = false :=
      fun i hi => hl i (List.mem_cons_of_mem _ hi)
    by_cases h3 : hasHandler inst.responder
    · simp [runPhase, h1, h3, List.filter_cons, ih prop hrest]
    · simp [runPhase, h1, h3, List.filter_cons, ih prop hrest]

/-- Claim C3, amended: for a dispatch whose target-phase instance list
contains no responder with `stopLocalPropagation` and in which every
instance's capture handler is defined exactly when its bubble handler is,
the capture-phase invocation sequence is exactly the reverse of the
bubble-phase invocation sequence.  (Without these side conditions the
claim fails: see `c3_counterexample`, and an instance whose responder
defines only one of the two handlers fires in only one phase.) -/
theorem c3_capture_is_reverse_of_bubble (owner : Option Instance)
    (t : String) (path : List PathEntry)
    (hstop : ∀ i ∈ getTargetEventResponderInstances owner t path,
      i.responder.stopLocalPropagation = false)
    (hsym : ∀ i ∈ getTargetEventResponderInstances owner t path,
      i.responder.onEventCapture = i.responder.onEvent) :
    captureSeq owner t path = (bubbleSeq owner t path).reverse := by
  unfold captureSeq bubbleSeq
  rw [runPhase_no_stop _ _ _ (fun i hi => hstop i (List.mem_reverse.mp hi)),
    runPhase_no_stop _ _ _ hstop, List.filter_reverse]
  congr 1
  exact List.filter_congr (fun i hi => by rw [hsym i hi])

def exY : Instance := { iid := 1, responder := exResponder }

theorem c3_capture_is_reverse_of_bubble_witness :
    ((∀ i ∈ getTargetEventResponderInstances none "press"
        [PathEntry.eventComp exX, PathEntry.eventComp exY],
      i.responder.stopLocalPropagation = false) ∧
     (∀ i ∈ getTargetEventResponderInstances none "press"
        [PathEntry.eventComp exX, PathEntry.eventComp exY],
      i.responder.onEventCapture = i.responder.onEvent)) ∧
    captureSeq none "press" [PathEntry.eventComp exX, PathEntry.eventComp exY] =
      (bubbleSeq none "press"
        [PathEntry.eventComp exX, PathEntry.eventComp exY]).reverse :=
  ⟨⟨by decide, by decide⟩,
    c3_capture_is_reverse_of_bubble none "press"
      [PathEntry.eventComp exX, PathEntry.eventComp exY]
      (by decide) (by decide)⟩

/-! ### Layer B: the stateful engine

`EngineState` embeds the module-level mutable variables.  JS `Symbol()`
timer tokens, host timer handles and timer-group objects are drawn from
counters in the state; the aliasing between `currentTimers` (delay ↦
group) and `activeTimeouts` (token ↦ group) in the source — both hold
references to the same mutable `ResponderTimeout` object — is embedded
through the `groups` heap, with both maps storing group ids.
`invariant(cond, msg)` throwing is embedded as `Except.error`; a context
call that throws leaves the `Except` error, which models the exception
propagating to the caller (aborting the call). -/

inductive Fault : Type
  | usedOutsideEventCycle
  | duplicateRootEventType
  | invalidEventObject
  deriving DecidableEq, Repr

structure EventObj where
  target : Option Nat
  ty : Option String
  deriving DecidableEq, Repr

structure EventQueue where
  events : List EventObj
  discrete : Bool
  deriving DecidableEq, Repr

def createEventQueue : EventQueue := { events := [], discrete := false }

/-- `ResponderTimer`: the per-token record `{instance, func, id}`; the
callback `func` is opaque to the engine and embedded as an id. -/
structure RTimer where
  instId : Nat
  funcId : Nat
  id : Nat
  deriving DecidableEq, Repr

/-- `ResponderTimeout`: one group of timers sharing a delay, holding the
host `setTimeout` handle and the token ↦ timer map. -/
structure TimerGroup where
  hostId : Nat
  timers : List (Nat × RTimer)
  deriving DecidableEq, Repr

structure EngineState where
  currentOwner : Option Nat
  currentInstance : Option Nat
  currentEventQueue : Option EventQueue
  currentTimers : Option (List (Nat × Nat))
  groups : List (Nat × TimerGroup)
  activeTimeouts : List (Nat × Nat)
  hostTimersLive : List Nat
  nextHostId : Nat
  nextTimerId : Nat
  nextGroupId : Nat
  rootRegistry : List (String × List Nat)
  instanceRoots : List (Nat × Option (List String))
  ownershipChangeListeners : List Nat
  eventListeners : List (EventObj × Nat)
  deriving DecidableEq, Repr

/-- `validateResponderContext`: `invariant(currentEventQueue &&
currentInstance, 'An event responder context was used outside of an
event cycle. …')`.  On success it also yields the queue and the current
instance, modelling the `((x: any): T)` casts at every use site. -/
def validateResponderContext (s : EngineState) :
    Except Fault (EventQueue × Nat) :=
  match s.currentEventQueue, s.currentInstance with
  | some q, some i => .ok (q, i)
  | _, _ => .error .usedOutsideEventCycle

/-- Per-instance dynamic `rootEventTypes` (nullable, lazily created); an
instance absent from the map still has its initial `null` set. -/
def rootsOf (s : EngineState) (iid : Nat) : Option (List String) :=
  (lookupA s.instanceRoots iid).getD none

def setRoots (s : EngineState) (iid : Nat) (v : Option (List String)) :
    EngineState :=
  { s with instanceRoots := setA s.instanceRoots iid v }

/-- Add an instance to the root registry bucket of an event type,
creating the bucket when absent (`Set.add` is append-unless-present). -/
def bucketAdd (reg : List (String × List Nat)) (name : String) (iid : Nat) :
    List (String × List Nat) :=
  setA reg name (addUniq ((lookupA reg name).getD []) iid)

def bucketRemove (reg : List (String × List Nat)) (name : String)
    (iid : Nat) : List (String × List Nat) :=
  match lookupA reg name with
  | none => reg
  | some b => setA reg name (b.erase iid)

/-! #### Responder-context operations -/

/-- `dispatchEvent(possibleEventObject, listener, {discrete})`: validate,
require `target` and `type` on the event object (else `throw new Error`),
mark the queue discrete if requested, record the listener for the object
and append the object to the current queue. -/
def ctxDispatchEvent (e : EventObj) (listenerId : Nat) (discrete : Bool)
    (s : EngineState) : Except Fault EngineState :=
  match validateResponderContext s with
  | .error f => .error f
  | .ok (q, _) =>
    if e.target = none ∨ e.ty = none then
      .error .invalidEventObject
    else
      .ok { s with
        currentEventQueue := some
          { events := q.events ++ [e]
            discrete := if discrete then true else q.discrete }
        eventListeners := setA s.eventListeners e listenerId }

inductive WorkTag : Type
  | eventComponent
  | eventTarget
  | hostComponent
  | hostOther
  deriving DecidableEq, Repr

/-- A direct child fiber as read by `getEventTargetsFromTarget`'s inner
loop: tag, `type.type`, `key`, and `stateNode.props` (opaque id). -/
structure ChildFiber where
  tag : WorkTag
  typeType : Nat
  key : Option String
  props : Nat
  deriving DecidableEq, Repr

/-- A fiber on the upward `return` chain: tag, `stateNode` (a responder
instance id for `EventComponent` fibers, a host element id otherwise),
and the direct children scanned by `getEventTargetsFromTarget`.  A fiber
is represented by the chain from itself to the root, so `node.return` is
the tail of the chain and fiber identity is chain equality. -/
structure PFiber where
  tag : WorkTag
  instId : Option Nat
  elemId : Nat
  children : List ChildFiber
  deriving DecidableEq, Repr

abbrev FiberPath := List PFiber

structure Rect where
  left : Int
  top : Int
  right : Int
  bottom : Int
  deriving DecidableEq, Repr

/-- External collaborators of the tree queries:
`getClosestInstanceFromNode` (node id ↦ fiber chain),
`doc.elementFromPoint` and the bounding rect of a target's parent node.
JS numbers are embedded as `Int`; the context operations only compare
them. -/
structure DomTreeEnv where
  closest : Nat → Option FiberPath
  elementFromPointDefined : Bool
  elementFromPoint : Int → Int → Option Nat
  parentRect : Nat → Rect

/-- `node.stateNode === currentInstance` for a fiber on a chain: true
exactly when the fiber's state node is the responder instance currently
acting (a host element or event-target state node never equals a
responder instance). -/
def stateNodeIsInstance (n : PFiber) (i : Nat) : Bool :=
  decide (n.instId = some i)

/-- `isPositionWithinTouchHitTarget(doc, x, y)`. -/
def ctxIsPositionWithinTouchHitTarget (env : DomTreeEnv) (x y : Int)
    (s : EngineState) : Except Fault Bool :=
  match validateResponderContext s with
  | .error f => .error f
  | .ok _ =>
    if ¬ env.elementFromPointDefined then .ok false
    else
      match env.elementFromPoint x y with
      | none => .ok false
      | some target =>
        match env.closest target with
        | none => .ok false
        | some [] => .ok false
        | some (_ :: rest) =>
          match rest with
          | [] => .ok false
          | parentFiber :: _ =>
            if parentFiber.tag = .eventTarget then
              let r := env.parentRect target
              if x > r.left ∧ y > r.top ∧ x < r.right ∧ y < r.bottom then
                .ok false
              else
                .ok true
            else
              .ok false

/-- `isTargetWithinEventComponent(target)`: validate, then walk the
chain from the closest fiber upward looking for the current instance. -/
def ctxIsTargetWithinEventComponent (env : DomTreeEnv) (target : Option Nat)
    (s : EngineState) : Except Fault Bool :=
  match validateResponderContext s with
  | .error f => .error f
  | .ok (_, i) =>
    match target with
    | none => .ok false
    | some t =>
      .ok (((env.closest t).getD []).any (fun n => stateNodeIsInstance n i))

/-- The upward walk of `isTargetWithinElement`: does the chain of the
child fiber contain the parent fiber (`node === parentFiber`)? -/
def chainContains : List PFiber → Option (List PFiber) → Bool
  | [], _ => false
  | n :: rest, target =>
    if target = some (n :: rest) then true else chainContains rest target

/-- `isTargetWithinElement(childTarget, parentTarget)`.  Unlike every
other context operation, the source performs no
`validateResponderContext()` call here and reads no module state; the
state parameter is taken only to expose the operation alongside its
siblings. -/
def ctxIsTargetWithinElement (env : DomTreeEnv) (childTarget parentTarget : Nat)
    (_s : EngineState) : Except Fault Bool :=
  .ok (chainContains ((env.closest childTarget).getD [])
    (env.closest parentTarget))

/-- `queryEventTarget(child, queryType, queryKey)`: an outer `none`
models the argument being `undefined` (no constraint). -/
def queryEventTarget (c : ChildFiber) (qType : Option Nat)
    (qKey : Option (Option String)) : Bool :=
  match qType with
  | some t => if c.typeType ≠ t then false else
      match qKey with
      | some k => decide (c.key = k)
      | none => true
  | none =>
    match qKey with
    | some k => decide (c.key = k)
    | none => true

/-- The outer loop of `getEventTargetsFromTarget`: walk the chain
upward; stop at the current instance's fiber; at each fiber scan its
direct children for the first event-target fiber matching the query and,
when its parent (`child.return`, i.e. the fiber being scanned) is a host
component, collect that host component's element and the event target's
props. -/
def collectEventTargets (i : Nat) (qType : Option Nat)
    (qKey : Option (Option String)) : List PFiber → List (Nat × Nat)
  | [] => []
  | node :: rest =>
    if stateNodeIsInstance node i then []
    else
      let found := node.children.find?
        (fun c => c.tag = WorkTag.eventTarget && queryEventTarget c qType qKey)
      let here : List (Nat × Nat) :=
        match found with
        | some c =>
          if stateNodeIsInstance node i then []
          else if node.tag = .hostComponent then [(node.elemId, c.props)]
          else []
        | none => []
      here ++ collectEventTargets i qType qKey rest

/-- `getEventTargetsFromTarget(target, queryType, queryKey)`. -/
def ctxGetEventTargetsFromTarget (env : DomTreeEnv) (target : Nat)
    (qType : Option Nat) (qKey : Option (Option String)) (s : EngineState) :
    Except Fault (List (Nat × Nat)) :=
  match validateResponderContext s with
  | .error f => .error f
  | .ok (_, i) =>
    .ok (collectEventTargets i qType qKey ((env.closest target).getD []))

/-- The loop body of `addRootEventTypes`: fetch or create the registry
bucket, fetch or create the instance's `rootEventTypes` set, fault on a
duplicate (`invariant(!rootEventTypesSet.has(topLevelEventType), …)`),
otherwise add the type to the set and the instance to the bucket.  The
external `listenToResponderEventTypesImpl(rootEventTypes, doc)` call that
precedes the loop only subscribes the document and is outside the model. -/
def addRootLoop (i : Nat) : List EventTypeSpec → EngineState →
    Except Fault EngineState
  | [], s => .ok s
  | t :: rest, s =>
    let name := typeName t
    let s1 := { s with rootRegistry :=
      (match lookupA s.rootRegistry name with
      | some _ => s.rootRegistry
      | none => setA s.rootRegistry name []) }
    let roots := (rootsOf s1 i).getD []
    if name ∈ roots then
      .error .duplicateRootEventType
    else
      addRootLoop i rest
        { s1 with
            instanceRoots := setA s1.instanceRoots i (some (roots ++ [name]))
            rootRegistry := bucketAdd s1.rootRegistry name i }

/-- `addRootEventTypes(doc, rootEventTypes)`. -/
def ctxAddRootEventTypes (types : List EventTypeSpec) (s : EngineState) :
    Except Fault EngineState :=
  match validateResponderContext s with
  | .error f => .error f
  | .ok (_, i) => addRootLoop i types s

def removeRootLoop (i : Nat) : List EventTypeSpec → EngineState → EngineState
  | [], s => s
  | t :: rest, s =>
    let name := typeName t
    let s1 :=
      match rootsOf s i with
      | none => s
      | some l => setRoots s i (some (l.erase name))
    removeRootLoop i rest
      { s1 with rootRegistry := bucketRemove s1.rootRegistry name i }

/-- `removeRootEventTypes(rootEventTypes)`. -/
def ctxRemoveRootEventTypes (types : List EventTypeSpec) (s : EngineState) :
    Except Fault EngineState :=
  match validateResponderContext s with
  | .error f => .error f
  | .ok (_, i) => .ok (removeRootLoop i types s)

/-- `hasOwnership()`: `currentOwner === currentInstance`. -/
def ctxHasOwnership (s : EngineState) : Except Fault Bool :=
  match validateResponderContext s with
  | .error f => .error f
  | .ok (_, i) => .ok (decide (s.currentOwner = some i))

/-- What a `triggerOwnershipListeners()` pass records for each listening
instance: the `currentInstance` in effect while its `onOwnershipChange`
runs, and what a `hasOwnership()` call made from inside the listener
would return.  The source sets `currentInstance` to each listener in
turn and restores the previous value in a `finally`; listener callbacks
are opaque to the model, so the pass leaves the state unchanged. -/
abbrev TrigObs := Option Nat × Except Fault Bool

def triggerOwnershipListeners (s : EngineState) :
    EngineState × List TrigObs :=
  (s, s.ownershipChangeListeners.map (fun iid =>
    (some iid, ctxHasOwnership { s with currentInstance := some iid })))

/-- `requestOwnership()`: fails (returns false) when the slot is
occupied; otherwise takes the slot, notifies the ownership-change
listeners and returns true. -/
def ctxRequestOwnership (s : EngineState) :
    Except Fault (EngineState × List TrigObs × Bool) :=
  match validateResponderContext s with
  | .error f => .error f
  | .ok (_, i) =>
    if s.currentOwner.isSome then
      .ok (s, [], false)
    else
      let res := triggerOwnershipListeners { s with currentOwner := some i }
      .ok (res.1, res.2, true)

/-- `releaseOwnership()`: returns false when the current instance is not
the holder; otherwise clears the slot, notifies the ownership-change
listeners — and still returns false. -/
def ctxReleaseOwnership (s : EngineState) :
    Except Fault (EngineState × List TrigObs × Bool) :=
  match validateResponderContext s with
  | .error f => .error f
  | .ok (_, i) =>
    if s.currentOwner ≠ some i then
      .ok (s, [], false)
    else
      let res := triggerOwnershipListeners { s with currentOwner := none }
      .ok (res.1, res.2, false)

/-- `setTimeout(func, delay)`: lazily create the per-cycle delay map;
reuse the delay's timer group when one exists, otherwise create a group
with a fresh host timer; add the timer record to the group and the token
to `activeTimeouts`. -/
def ctxSetTimeout (funcId delay : Nat) (s : EngineState) :
    Except Fault (EngineState × Nat) :=
  match validateResponderContext s with
  | .error f => .error f
  | .ok (_, i) =>
    let ct := (s.currentTimers).getD []
    let timerId := s.nextTimerId
    match lookupA ct delay with
    | none =>
      let hostId := s.nextHostId
      let gid := s.nextGroupId
      let g : TimerGroup :=
        { hostId := hostId
          timers := [(timerId, { instId := i, funcId := funcId, id := timerId })] }
      .ok ({ s with
        currentTimers := some (setA ct delay gid)
        groups := setA s.groups gid g
        activeTimeouts := setA s.activeTimeouts timerId gid
        hostTimersLive := s.hostTimersLive ++ [hostId]
        nextHostId := s.nextHostId + 1
        nextGroupId := s.nextGroupId + 1
        nextTimerId := s.nextTimerId + 1 }, timerId)
    | some gid =>
      match lookupA s.groups gid with
      | none => .ok (s, timerId)
      | some g =>
        let rt : RTimer := { instId := i, funcId := funcId, id := timerId }
        let g1 : TimerGroup := { g with timers := setA g.timers timerId rt }
        .ok ({ s with
          currentTimers := some ct
          groups := setA s.groups gid g1
          activeTimeouts := setA s.activeTimeouts timerId gid
          nextTimerId := s.nextTimerId + 1 }, timerId)

/-- `clearTimeout(timerId)`: look the token up in `activeTimeouts` (a
cleared or unknown token is a no-op), delete the token from its group's
timer map, and cancel the group's host timer when the group became
empty.  Neither the `activeTimeouts` entry nor the `currentTimers`
delay ↦ group entry is removed. -/
def ctxClearTimeout (timerId : Nat) (s : EngineState) :
    Except Fault EngineState :=
  match validateResponderContext s with
  | .error f => .error f
  | .ok _ =>
    match lookupA s.activeTimeouts timerId with
    | none => .ok s
    | some gid =>
      match lookupA s.groups gid with
      | none => .ok s
      | some g =>
        let timers := eraseA g.timers timerId
        if timers.length = 0 then
          .ok { s with
            groups := setA s.groups gid { g with timers := timers }
            hostTimersLive := s.hostTimersLive.erase g.hostId }
        else
          .ok { s with groups := setA s.groups gid { g with timers := timers } }

/-- The loop of `processTimers`: for each fired timer, set
`currentInstance`, run the opaque callback `func()` — the recorded `Bool`
is whether `activeTimeouts.get(id)` would still find the token at that
moment, i.e. what a re-entrant `clearTimeout` from inside the callback
observes — and delete the token from `activeTimeouts` in the
per-iteration `finally`. -/
def processTimersLoop : List RTimer → EngineState → EngineState × List Bool
  | [], s => (s, [])
  | t :: rest, s =>
    let s1 := { s with currentInstance := some t.instId }
    let obs := (lookupA s1.activeTimeouts t.id).isSome
    let s2 := { s1 with activeTimeouts := eraseA s1.activeTimeouts t.id }
    let res := processTimersLoop rest s2
    (res.1, obs :: res.2)

/-- `processTimers(timers)`: open a fresh event queue, run the fired
timers, flush (the flush hands the queue to the external batching
collaborator), and tear down the per-cycle state in the outer
`finally`. -/
def processTimers (timersArr : List RTimer) (s : EngineState) :
    EngineState × List Bool :=
  let s0 := { s with currentEventQueue := some createEventQueue }
  let res := processTimersLoop timersArr s0
  ({ res.1 with
      currentTimers := none
      currentInstance := none
      currentEventQueue := none }, res.2)

/-- The lifecycle-relevant fields of a `ReactEventComponentInstance` for
the stateful model: identity plus whether its responder declares
`onOwnershipChange` and `onUnmount`. -/
structure BInstance where
  iid : Nat
  onOwnershipChange : Bool
  onUnmount : Bool
  deriving DecidableEq, Repr

/-- `mountEventResponder(eventComponentInstance)`. -/
def mountEventResponder (inst : BInstance) (s : EngineState) : EngineState :=
  if inst.onOwnershipChange then
    { s with ownershipChangeListeners :=
        addUniq s.ownershipChangeListeners inst.iid }
  else s

/-- `unmountEventResponder(eventComponentInstance)`: run `onUnmount` (if
declared) in its own cycle whose `finally` clears the queue, instance and
per-cycle timers; release ownership held by the unmounting instance and
notify the listeners; drop the instance from the ownership-change
registry; remove it from every root-registry bucket named in its dynamic
`rootEventTypes` set.  The `onUnmount` callback itself is opaque. -/
def unmountEventResponder (inst : BInstance) (s : EngineState) :
    EngineState × List TrigObs :=
  let s1 :=
    if inst.onUnmount then
      { s with
          currentEventQueue := none
          currentInstance := none
          currentTimers := none }
    else s
  let res :=
    if s1.currentOwner = some inst.iid then
      triggerOwnershipListeners { s1 with currentOwner := none }
    else (s1, [])
  let s2 := res.1
  let s3 :=
    if inst.onOwnershipChange then
      { s2 with ownershipChangeListeners :=
          s2.ownershipChangeListeners.erase inst.iid }
    else s2
  let s4 :=
    match rootsOf s3 inst.iid with
    | none => s3
    | some ts =>
      { s3 with rootRegistry :=
          ts.foldl (fun reg t => bucketRemove reg t inst.iid) s3.rootRegistry }
  (s4, res.2)

/-- `addRootEventTypesForComponentInstance(eventComponentInstance,
rootEventTypes)` — the static registration entry point: no validation, no
duplicate check; adds each type name to the instance's (lazily created)
`rootEventTypes` set and the instance to the type's registry bucket.  It
touches no per-cycle state, so it is embedded on the instance's set and
the registry alone. -/
def addRootEventTypesForComponentInstance (iid : Nat)
    (rootEventTypes : Option (List String))
    (registry : List (String × List Nat)) :
    List EventTypeSpec → Option (List String) × List (String × List Nat)
  | [] => (rootEventTypes, registry)
  | t :: rest =>
    let name := typeName t
    let roots := rootEventTypes.getD []
    addRootEventTypesForComponentInstance iid (some (addUniq roots name))
      (bucketAdd registry name iid) rest

/-! ### Theorems about the stateful engine -/

theorem validate_error (s : EngineState)
    (h : s.currentEventQueue = none ∨ s.currentInstance = none) :
    validateResponderContext s = .error .usedOutsideEventCycle := by
  rcases h with h | h
  · cases hi : s.currentInstance <;> simp [validateResponderContext, h, hi]
  · cases hq : s.currentEventQueue <;> simp [validateResponderContext, h, hq]

/-- A state with no current cycle and an environment, used by witnesses
and counterexamples. -/
def baseState : EngineState :=
  { currentOwner := none
    currentInstance := none
    currentEventQueue := none
    currentTimers := none
    groups := []
    activeTimeouts := []
    hostTimersLive := []
    nextHostId := 0
    nextTimerId := 0
    nextGroupId := 0
    rootRegistry := []
    instanceRoots := []
    ownershipChangeListeners := []
    eventListeners := [] }

def exEnv : DomTreeEnv :=
  { closest := fun _ => none
    elementFromPointDefined := false
    elementFromPoint := fun _ _ => none
    parentRect := fun _ => { left := 0, top := 0, right := 0, bottom := 0 } }

/-- Counterexample to claim C4 as stated: in a state with no current
dispatch cycle (`currentEventQueue` is null) the context operation
`isTargetWithinElement` does not fault — its body never calls
`validateResponderContext` — and completes normally, returning a value. -/
theorem c4_counterexample :
    baseState.currentEventQueue = none ∧
      ctxIsTargetWithinElement exEnv 1 2 baseState = .ok false :=
  ⟨rfl, rfl⟩

/-- Claim C4, amended: every responder-context operation *except*
`isTargetWithinElement` begins with `validateResponderContext` and, when
no dispatch cycle is current (no current event queue or no current
instance), faults with the used-outside-event-cycle programming error,
aborting the call; `isTargetWithinElement` performs no such check and
completes normally on the same state. -/
theorem c4_context_ops_fault_outside_cycle (env : DomTreeEnv)
    (s : EngineState) (e : EventObj) (lid : Nat) (disc : Bool) (x y : Int)
    (tgt : Option Nat) (types types2 : List EventTypeSpec)
    (fid d tid t1 t2 t3 : Nat) (qt : Option Nat) (qk : Option (Option String))
    (h : s.currentEventQueue = none ∨ s.currentInstance = none) :
    ctxDispatchEvent e lid disc s = .error .usedOutsideEventCycle ∧
    ctxIsPositionWithinTouchHitTarget env x y s =
      .error .usedOutsideEventCycle ∧
    ctxIsTargetWithinEventComponent env tgt s =
      .error .usedOutsideEventCycle ∧
    ctxAddRootEventTypes types s = .error .usedOutsideEventCycle ∧
    ctxRemoveRootEventTypes types2 s = .error .usedOutsideEventCycle ∧
    ctxHasOwnership s = .error .usedOutsideEventCycle ∧
    ctxRequestOwnership s = .error .usedOutsideEventCycle ∧
    ctxReleaseOwnership s = .error .usedOutsideEventCycle ∧
    ctxSetTimeout fid d s = .error .usedOutsideEventCycle ∧
    ctxClearTimeout tid s = .error .usedOutsideEventCycle ∧
    ctxGetEventTargetsFromTarget env t3 qt qk s =
      .error .usedOutsideEventCycle ∧
    ctxIsTargetWithinElement env t1 t2 s =
      .ok (chainContains ((env.closest t1).getD []) (env.closest t2)) := by
  have hv := validate_error s h
  exact ⟨by simp [ctxDispatchEvent, hv],
    by simp [ctxIsPositionWithinTouchHitTarget, hv],
    by simp [ctxIsTargetWithinEventComponent, hv],
    by simp [ctxAddRootEventTypes, hv],
    by simp [ctxRemoveRootEventTypes, hv],
    by simp [ctxHasOwnership, hv],
    by simp [ctxRequestOwnership, hv],
    by simp [ctxReleaseOwnership, hv],
    by simp [ctxSetTimeout, hv],
    by simp [ctxClearTimeout, hv],
    by simp [ctxGetEventTargetsFromTarget, hv],
    rfl⟩

theorem c4_context_ops_fault_outside_cycle_witness :
    (baseState.currentEventQueue = none ∨ baseState.currentInstance = none) ∧
    (ctxDispatchEvent { target := some 1, ty := some "press" } 0 false
        baseState = .error .usedOutsideEventCycle ∧
    ctxIsPositionWithinTouchHitTarget exEnv 0 0 baseState =
      .error .usedOutsideEventCycle ∧
    ctxIsTargetWithinEventComponent exEnv (some 1) baseState =
      .error .usedOutsideEventCycle ∧
    ctxAddRootEventTypes [.str "scroll"] baseState =
      .error .usedOutsideEventCycle ∧
    ctxRemoveRootEventTypes [.str "scroll"] baseState =
      .error .usedOutsideEventCycle ∧
    ctxHasOwnership baseState = .error .usedOutsideEventCycle ∧
    ctxRequestOwnership baseState = .error .usedOutsideEventCycle ∧
    ctxReleaseOwnership baseState = .error .usedOutsideEventCycle ∧
    ctxSetTimeout 0 10 baseState = .error .usedOutsideEventCycle ∧
    ctxClearTimeout 0 baseState = .error .usedOutsideEventCycle ∧
    ctxGetEventTargetsFromTarget exEnv 3 none none baseState =
      .error .usedOutsideEventCycle ∧
    ctxIsTargetWithinElement exEnv 1 2 baseState =
      .ok (chainContains ((exEnv.closest 1).getD []) (exEnv.closest 2))) :=
  ⟨Or.inl rfl,
    c4_context_ops_fault_outside_cycle exEnv baseState
      { target := some 1, ty := some "press" } 0 false 0 0 (some 1)
      [.str "scroll"] [.str "scroll"] 0 10 0 1 2 3 none none (Or.inl rfl)⟩

/-- Claim C7: `releaseOwnership` faults outside a cycle (validation),
otherwise returns `false` unconditionally; it clears the ownership slot
and runs the ownership-change notification pass exactly when the current
instance is the holder, and leaves the state untouched (no notification)
otherwise. -/
theorem c7_releaseOwnership_returns_false (s : EngineState) (q : EventQueue)
    (i : Nat) (hq : s.currentEventQueue = some q)
    (hi : s.currentInstance = some i) :
    ∃ st tr, ctxReleaseOwnership s = .ok (st, tr, false) ∧
      (s.currentOwner = some i →
        st.currentOwner = none ∧
        tr.length = s.ownershipChangeListeners.length) ∧
      (s.currentOwner ≠ some i → st = s ∧ tr = []) := by
  have hv : validateResponderContext s = .ok (q, i) := by
    unfold validateResponderContext
    rw [hq, hi]
  simp only [ctxReleaseOwnership, hv]
  by_cases h : s.currentOwner = some i
  · refine ⟨(triggerOwnershipListeners { s with currentOwner := none }).1,
      (triggerOwnershipListeners { s with currentOwner := none }).2,
      ?_, fun _ => ⟨rfl, ?_⟩, fun hc => absurd h hc⟩
    · rw [if_neg (not_not_intro h)]
    · simp [triggerOwnershipListeners]
  · exact ⟨s, [], by rw [if_pos h], fun hc => absurd hc h,
      fun _ => ⟨rfl, rfl⟩⟩

def exC7State : EngineState :=
  { baseState with
      currentEventQueue := some createEventQueue
      currentInstance := some 1
      currentOwner := some 1
      ownershipChangeListeners := [2] }

theorem c7_releaseOwnership_returns_false_witness :
    (exC7State.currentEventQueue = some createEventQueue ∧
      exC7State.currentInstance = some 1) ∧
    (∃ st tr, ctxReleaseOwnership exC7State = .ok (st, tr, false) ∧
      (exC7State.currentOwner = some 1 →
        st.currentOwner = none ∧
        tr.length = exC7State.ownershipChangeListeners.length) ∧
      (exC7State.currentOwner ≠ some 1 → st = exC7State ∧ tr = [])) :=
  ⟨⟨rfl, rfl⟩, c7_releaseOwnership_returns_false exC7State createEventQueue 1
    rfl rfl⟩

theorem rootsOf_setRoots_self (s : EngineState) (i : Nat)
    (v : Option (List String)) : rootsOf (setRoots s i v) i = v := by
  unfold rootsOf setRoots
  simp [lookupA_setA_self]

theorem addRootLoop_duplicate (i : Nat) (types : List EventTypeSpec)
    (n : String) : ∀ s : EngineState, (∃ t ∈ types, typeName t = n) →
    n ∈ (rootsOf s i).getD [] →
    addRootLoop i types s = .error .duplicateRootEventType := by
  induction types with
  | nil =>
    intro s h _
    simp at h
  | cons t rest ih =>
    intro s ht hmem
    simp only [addRootLoop]
    have hroots1 : rootsOf { s with rootRegistry :=
        (match lookupA s.rootRegistry (typeName t) with
        | some _ => s.rootRegistry
        | none => setA s.rootRegistry (typeName t) []) } i = rootsOf s i := rfl
    by_cases hd : typeName t ∈ (rootsOf s i).getD []
    · simp [hroots1, hd]
    · have hne : ¬ typeName t = n := fun hc => hd (hc ▸ hmem)
      obtain ⟨t', ht', hn⟩ := ht
      rcases List.mem_cons.mp ht' with h' | h'
      · exact absurd (h' ▸ hn) hne
      · simp only [hroots1, if_neg hd]
        apply ih _ ⟨t', h', hn⟩
        simp only [rootsOf, lookupA_setA_self, Option.getD_some]
        exact List.mem_append_left _ hmem

/-- Claim C9: registering, through the responder context's
`addRootEventTypes`, a root event type already present in the acting
instance's dynamic `rootEventTypes` set is an unconditional fault
(`invariant(!rootEventTypesSet.has(...), …)`) that aborts the
registration. -/
theorem c9_duplicate_root_event_type_faults (s : EngineState)
    (q : EventQueue) (i : Nat) (types : List EventTypeSpec)
    (t : EventTypeSpec) (hq : s.currentEventQueue = some q)
    (hi : s.currentInstance = some i) (ht : t ∈ types)
    (hdup : typeName t ∈ (rootsOf s i).getD []) :
    ctxAddRootEventTypes types s = .error .duplicateRootEventType := by
  have hv : validateResponderContext s = .ok (q, i) := by
    unfold validateResponderContext
    rw [hq, hi]
  simp only [ctxAddRootEventTypes, hv]
  exact addRootLoop_duplicate i types (typeName t) s ⟨t, ht, rfl⟩ hdup

def exC9State : EngineState :=
  { baseState with
      currentEventQueue := some createEventQueue
      currentInstance := some 1
      rootRegistry := [("press", [1])]
      instanceRoots := [(1, some ["press"])] }

theorem c9_duplicate_root_event_type_faults_witness :
    (exC9State.currentEventQueue = some createEventQueue ∧
      exC9State.currentInstance = some 1 ∧
      EventTypeSpec.str "press" ∈ [EventTypeSpec.str "press"] ∧
      typeName (EventTypeSpec.str "press") ∈
        (rootsOf exC9State 1).getD []) ∧
    ctxAddRootEventTypes [EventTypeSpec.str "press"] exC9State =
      .error .duplicateRootEventType :=
  ⟨⟨rfl, rfl, by decide, by decide⟩,
    c9_duplicate_root_event_type_faults exC9State createEventQueue 1
      [EventTypeSpec.str "press"] (EventTypeSpec.str "press") rfl rfl
      (by decide) (by decide)⟩

theorem lookupA_eraseA_none {κ α : Type} [DecidableEq κ]
    (m : List (κ × α)) (k k' : κ) (h : lookupA m k' = none) :
    lookupA (eraseA m k) k' = none := by
  by_cases hk : k' = k
  · subst hk
    exact lookupA_eraseA_self m k'
  · rw [lookupA_eraseA_ne m k k' hk]
    exact h

theorem processTimersLoop_nil (s : EngineState) :
    processTimersLoop [] s = (s, []) := rfl

theorem processTimersLoop_cons (t : RTimer) (rest : List RTimer)
    (s : EngineState) :
    processTimersLoop (t :: rest) s =
      ((processTimersLoop rest
          { s with
              currentInstance := some t.instId
              activeTimeouts := eraseA s.activeTimeouts t.id }).1,
        (lookupA s.activeTimeouts t.id).isSome ::
          (processTimersLoop rest
            { s with
                currentInstance := some t.instId
                activeTimeouts := eraseA s.activeTimeouts t.id }).2) := rfl

theorem processTimersLoop_none (timersArr : List RTimer) :
    ∀ (s : EngineState) (k : Nat), lookupA s.activeTimeouts k = none →
      lookupA (processTimersLoop timersArr s).1.activeTimeouts k = none := by
  induction timersArr with
  | nil =>
    intro s k h
    exact h
  | cons t rest ih =>
    intro s k h
    rw [processTimersLoop_cons]
    exact ih _ k (lookupA_eraseA_none _ t.id k h)

theorem processTimersLoop_spec (timersArr : List RTimer) :
    ∀ s : EngineState, (timersArr.map RTimer.id).Nodup →
      (∀ t ∈ timersArr, (lookupA s.activeTimeouts t.id).isSome = true) →
      (processTimersLoop timersArr s).2 =
        List.replicate timersArr.length true ∧
      (∀ t ∈ timersArr,
        lookupA (processTimersLoop timersArr s).1.activeTimeouts t.id =
          none) := by
  induction timersArr with
  | nil =>
    intro s _ _
    exact ⟨rfl, by simp⟩
  | cons t rest ih =>
    intro s hnodup hin
    have hhd : t.id ∉ rest.map RTimer.id := (List.nodup_cons.mp hnodup).1
    have htl : (rest.map RTimer.id).Nodup := (List.nodup_cons.mp hnodup).2
    have hne : ∀ t' ∈ rest, t'.id ≠ t.id := by
      intro t' ht' hc
      exact hhd (hc ▸ List.mem_map_of_mem RTimer.id ht')
    have hobs : (lookupA s.activeTimeouts t.id).isSome = true :=
      hin t (List.mem_cons_self _ _)
    have hin' : ∀ t' ∈ rest,
        (lookupA (eraseA s.activeTimeouts t.id) t'.id).isSome = true := by
      intro t' ht'
      rw [lookupA_eraseA_ne _ t.id t'.id (hne t' ht')]
      exact hin t' (List.mem_cons_of_mem _ ht')
    obtain ⟨ih1, ih2⟩ := ih
      { s with
          currentInstance := some t.instId
          activeTimeouts := eraseA s.activeTimeouts t.id } htl hin'
    rw [processTimersLoop_cons]
    constructor
    · simp [hobs, ih1, List.replicate]
    · intro t' ht'
      rcases List.mem_cons.mp ht' with h' | h'
      · subst h'
        exact processTimersLoop_none rest _ t'.id (lookupA_eraseA_self _ _)
      · exact ih2 t' h'

/-- Claim C5, amended: when a timer group fires, each timer's entry is
removed from `activeTimeouts` immediately *after* its callback runs (the
deletion sits in the per-iteration `finally`), not before.  A callback
that re-entrantly looks up — or cancels — its own token therefore still
observes its entry present (every recorded observation is `true`); once
`processTimers` finishes, every fired entry is gone from the registry. -/
theorem c5_timer_entry_removed_after_callback (timersArr : List RTimer)
    (s : EngineState) (hnodup : (timersArr.map RTimer.id).Nodup)
    (hin : ∀ t ∈ timersArr, (lookupA s.activeTimeouts t.id).isSome = true) :
    (processTimers timersArr s).2 = List.replicate timersArr.length true ∧
    ∀ t ∈ timersArr,
      lookupA (processTimers timersArr s).1.activeTimeouts t.id = none := by
  obtain ⟨h1, h2⟩ := processTimersLoop_spec timersArr
    { s with currentEventQueue := some createEventQueue } hnodup hin
  exact ⟨h1, fun t ht => h2 t ht⟩

def exTimer : RTimer := { instId := 1, funcId := 5, id := 0 }

def exC5State : EngineState := { baseState with activeTimeouts := [(0, 0)] }

theorem c5_timer_entry_removed_after_callback_witness :
    (([exTimer].map RTimer.id).Nodup ∧
      ∀ t ∈ [exTimer],
        (lookupA exC5State.activeTimeouts t.id).isSome = true) ∧
    ((processTimers [exTimer] exC5State).2 =
        List.replicate [exTimer].length true ∧
      ∀ t ∈ [exTimer],
        lookupA (processTimers [exTimer] exC5State).1.activeTimeouts t.id =
          none) :=
  ⟨⟨by decide, by decide⟩,
    c5_timer_entry_removed_after_callback [exTimer] exC5State
      (by decide) (by decide)⟩

/-- Counterexample to claim C5 as stated: the claim predicts that a
fired timer's entry is removed from `activeTimeouts` *before* its
callback runs, so the callback would observe its own token already gone
(observation `false`).  Running `processTimers` on a single registered
timer records observation `true`: while the callback runs, its entry is
still in the registry, because the source deletes it only in the
per-iteration `finally` after `func()` returns. -/
theorem c5_counterexample :
    lookupA exC5State.activeTimeouts exTimer.id = some 0 ∧
      (processTimers [exTimer] exC5State).2 = [true] :=
  ⟨rfl, rfl⟩

/-- A mid-cycle engine state (a cycle is current: some event queue and
some current instance), spelled out field by field so that the timer
operations can be computed symbolically. -/
def timerState (co : Option Nat) (q : EventQueue) (i : Nat)
    (ct : Option (List (Nat × Nat))) (gs : List (Nat × TimerGroup))
    (as0 : List (Nat × Nat)) (live : List Nat) (nh nt ng : Nat)
    (rr : List (String × List Nat)) (ir : List (Nat × Option (List String)))
    (ol : List Nat) (el : List (EventObj × Nat)) : EngineState :=
  { currentOwner := co
    currentInstance := some i
    currentEventQueue := some q
    currentTimers := ct
    groups := gs
    activeTimeouts := as0
    hostTimersLive := live
    nextHostId := nh
    nextTimerId := nt
    nextGroupId := ng
    rootRegistry := rr
    instanceRoots := ir
    ownershipChangeListeners := ol
    eventListeners := el }

/-- Claim C6, amended: within one cycle (starting with no per-cycle
delay map), scheduling two timers with the same delay creates exactly one
underlying host timer — the second call reuses the first call's
`TimerGroup` (one fresh host id, one new live host timer).  Cancelling
the first timer removes only its entry from the group and leaves the
other's callback scheduled (the host timer stays live).  Cancelling the
second — last — entry cancels the underlying host timer, but the
`TimerGroup` is *not* removed from the per-cycle delay map: the now-empty
group remains reachable under its delay (the delay map is only discarded
wholesale when the cycle tears down or `processTimers` fires).  The
claim's "the TimerGroup for a delay is removed (including from the
per-cycle delay map) once its last timer entry is cancelled" fails; see
the counterexample. -/
theorem c6_timer_group_sharing (co : Option Nat) (q : EventQueue)
    (i f1 f2 d nh nt ng : Nat) (gs : List (Nat × TimerGroup))
    (as0 : List (Nat × Nat)) (live : List Nat)
    (rr : List (String × List Nat)) (ir : List (Nat × Option (List String)))
    (ol : List Nat) (el : List (EventObj × Nat)) (hfresh : nh ∉ live) :
    ctxSetTimeout f1 d
        (timerState co q i none gs as0 live nh nt ng rr ir ol el) =
      .ok (timerState co q i (some [(d, ng)])
        (setA gs ng ⟨nh, [(nt, ⟨i, f1, nt⟩)]⟩) (setA as0 nt ng)
        (live ++ [nh]) (nh + 1) (nt + 1) (ng + 1) rr ir ol el, nt) ∧
    ctxSetTimeout f2 d
        (timerState co q i (some [(d, ng)])
          (setA gs ng ⟨nh, [(nt, ⟨i, f1, nt⟩)]⟩) (setA as0 nt ng)
          (live ++ [nh]) (nh + 1) (nt + 1) (ng + 1) rr ir ol el) =
      .ok (timerState co q i (some [(d, ng)])
        (setA (setA gs ng ⟨nh, [(nt, ⟨i, f1, nt⟩)]⟩) ng
          ⟨nh, [(nt, ⟨i, f1, nt⟩), (nt + 1, ⟨i, f2, nt + 1⟩)]⟩)
        (setA (setA as0 nt ng) (nt + 1) ng)
        (live ++ [nh]) (nh + 1) (nt + 2) (ng + 1) rr ir ol el, nt + 1) ∧
    ctxClearTimeout nt
        (timerState co q i (some [(d, ng)])
          (setA (setA gs ng ⟨nh, [(nt, ⟨i, f1, nt⟩)]⟩) ng
            ⟨nh, [(nt, ⟨i, f1, nt⟩), (nt + 1, ⟨i, f2, nt + 1⟩)]⟩)
          (setA (setA as0 nt ng) (nt + 1) ng)
          (live ++ [nh]) (nh + 1) (nt + 2) (ng + 1) rr ir ol el) =
      .ok (timerState co q i (some [(d, ng)])
        (setA (setA (setA gs ng ⟨nh, [(nt, ⟨i, f1, nt⟩)]⟩) ng
            ⟨nh, [(nt, ⟨i, f1, nt⟩), (nt + 1, ⟨i, f2, nt + 1⟩)]⟩) ng
          ⟨nh, [(nt + 1, ⟨i, f2, nt + 1⟩)]⟩)
        (setA (setA as0 nt ng) (nt + 1) ng)
        (live ++ [nh]) (nh + 1) (nt + 2) (ng + 1) rr ir ol el) ∧
    ctxClearTimeout (nt + 1)
        (timerState co q i (some [(d, ng)])
          (setA (setA (setA gs ng ⟨nh, [(nt, ⟨i, f1, nt⟩)]⟩) ng
              ⟨nh, [(nt, ⟨i, f1, nt⟩), (nt + 1, ⟨i, f2, nt + 1⟩)]⟩) ng
            ⟨nh, [(nt + 1, ⟨i, f2, nt + 1⟩)]⟩)
          (setA (setA as0 nt ng) (nt + 1) ng)
          (live ++ [nh]) (nh + 1) (nt + 2) (ng + 1) rr ir ol el) =
      .ok (timerState co q i (some [(d, ng)])
        (setA (setA (setA (setA gs ng ⟨nh, [(nt, ⟨i, f1, nt⟩)]⟩) ng
            ⟨nh, [(nt, ⟨i, f1, nt⟩), (nt + 1, ⟨i, f2, nt + 1⟩)]⟩) ng
          ⟨nh, [(nt + 1, ⟨i, f2, nt + 1⟩)]⟩) ng ⟨nh, []⟩)
        (setA (setA as0 nt ng) (nt + 1) ng)
        live (nh + 1) (nt + 2) (ng + 1) rr ir ol el) ∧
    nh ∉ (timerState co q i (some [(d, ng)])
        (setA (setA (setA (setA gs ng ⟨nh, [(nt, ⟨i, f1, nt⟩)]⟩) ng
            ⟨nh, [(nt, ⟨i, f1, nt⟩), (nt + 1, ⟨i, f2, nt + 1⟩)]⟩) ng
          ⟨nh, [(nt + 1, ⟨i, f2, nt + 1⟩)]⟩) ng ⟨nh, []⟩)
        (setA (setA as0 nt ng) (nt + 1) ng)
        live (nh + 1) (nt + 2) (ng + 1) rr ir ol el).hostTimersLive ∧
    lookupA (((timerState co q i (some [(d, ng)])
        (setA (setA (setA (setA gs ng ⟨nh, [(nt, ⟨i, f1, nt⟩)]⟩) ng
            ⟨nh, [(nt, ⟨i, f1, nt⟩), (nt + 1, ⟨i, f2, nt + 1⟩)]⟩) ng
          ⟨nh, [(nt + 1, ⟨i, f2, nt + 1⟩)]⟩) ng ⟨nh, []⟩)
        (setA (setA as0 nt ng) (nt + 1) ng)
        live (nh + 1) (nt + 2) (ng + 1) rr ir ol el).currentTimers).getD [])
      d = some ng := by
  have hne1 : nt ≠ nt + 1 := Nat.ne_of_lt (Nat.lt_succ_self nt)
  have hne2 : nt + 1 ≠ nt := Ne.symm hne1
  have herase : (live ++ [nh]).erase nh = live := by
    rw [List.erase_append_right _ hfresh]
    simp
  refine ⟨rfl, ?_, ?_, ?_, ?_, ?_⟩
  · simp [ctxSetTimeout, timerState, validateResponderContext, lookupA,
      setA, hne1, hne2, lookupA_setA_self]
  · simp [ctxClearTimeout, timerState, validateResponderContext,
      lookupA_setA_self, lookupA_setA_ne, eraseA, hne1, hne2, List.filter]
  · simp [ctxClearTimeout, timerState, validateResponderContext,
      lookupA_setA_self, lookupA_setA_ne, eraseA, hne1, hne2, List.filter,
      herase]
  · simpa [timerState] using hfresh
  · simp [timerState, lookupA]

theorem c6_timer_group_sharing_witness :
    ((0 : Nat) ∉ ([] : List Nat)) ∧
    (ctxSetTimeout 5 100
        (timerState none createEventQueue 1 none [] [] [] 0 0 0 [] [] [] []) =
      .ok (timerState none createEventQueue 1 (some [(100, 0)])
        (setA [] 0 ⟨0, [(0, ⟨1, 5, 0⟩)]⟩) (setA [] 0 0)
        ([] ++ [0]) (0 + 1) (0 + 1) (0 + 1) [] [] [] [], 0) ∧
    ctxSetTimeout 6 100
        (timerState none createEventQueue 1 (some [(100, 0)])
          (setA [] 0 ⟨0, [(0, ⟨1, 5, 0⟩)]⟩) (setA [] 0 0)
          ([] ++ [0]) (0 + 1) (0 + 1) (0 + 1) [] [] [] []) =
      .ok (timerState none createEventQueue 1 (some [(100, 0)])
        (setA (setA [] 0 ⟨0, [(0, ⟨1, 5, 0⟩)]⟩) 0
          ⟨0, [(0, ⟨1, 5, 0⟩), (0 + 1, ⟨1, 6, 0 + 1⟩)]⟩)
        (setA (setA [] 0 0) (0 + 1) 0)
        ([] ++ [0]) (0 + 1) (0 + 2) (0 + 1) [] [] [] [], 0 + 1) ∧
    ctxClearTimeout 0
        (timerState none createEventQueue 1 (some [(100, 0)])
          (setA (setA [] 0 ⟨0, [(0, ⟨1, 5, 0⟩)]⟩) 0
            ⟨0, [(0, ⟨1, 5, 0⟩), (0 + 1, ⟨1, 6, 0 + 1⟩)]⟩)
          (setA (setA [] 0 0) (0 + 1) 0)
          ([] ++ [0]) (0 + 1) (0 + 2) (0 + 1) [] [] [] []) =
      .ok (timerState none createEventQueue 1 (some [(100, 0)])
        (setA (setA (setA [] 0 ⟨0, [(0, ⟨1, 5, 0⟩)]⟩) 0
            ⟨0, [(0, ⟨1, 5, 0⟩), (0 + 1, ⟨1, 6, 0 + 1⟩)]⟩) 0
          ⟨0, [(0 + 1, ⟨1, 6, 0 + 1⟩)]⟩)
        (setA (setA [] 0 0) (0 + 1) 0)
        ([] ++ [0]) (0 + 1) (0 + 2) (0 + 1) [] [] [] []) ∧
    ctxClearTimeout (0 + 1)
        (timerState none createEventQueue 1 (some [(100, 0)])
          (setA (setA (setA [] 0 ⟨0, [(0, ⟨1, 5, 0⟩)]⟩) 0
              ⟨0, [(0, ⟨1, 5, 0⟩), (0 + 1, ⟨1, 6, 0 + 1⟩)]⟩) 0
            ⟨0, [(0 + 1, ⟨1, 6, 0 + 1⟩)]⟩)
          (setA (setA [] 0 0) (0 + 1) 0)
          ([] ++ [0]) (0 + 1) (0 + 2) (0 + 1) [] [] [] []) =
      .ok (timerState none createEventQueue 1 (some [(100, 0)])
        (setA (setA (setA (setA [] 0 ⟨0, [(0, ⟨1, 5, 0⟩)]⟩) 0
            ⟨0, [(0, ⟨1, 5, 0⟩), (0 + 1, ⟨1, 6, 0 + 1⟩)]⟩) 0
          ⟨0, [(0 + 1, ⟨1, 6, 0 + 1⟩)]⟩) 0 ⟨0, []⟩)
        (setA (setA [] 0 0) (0 + 1) 0)
        [] (0 + 1) (0 + 2) (0 + 1) [] [] [] []) ∧
    (0 : Nat) ∉ (timerState none createEventQueue 1 (some [(100, 0)])
        (setA (setA (setA (setA [] 0 ⟨0, [(0, ⟨1, 5, 0⟩)]⟩) 0
            ⟨0, [(0, ⟨1, 5, 0⟩), (0 + 1, ⟨1, 6, 0 + 1⟩)]⟩) 0
          ⟨0, [(0 + 1, ⟨1, 6, 0 + 1⟩)]⟩) 0 ⟨0, []⟩)
        (setA (setA [] 0 0) (0 + 1) 0)
        [] (0 + 1) (0 + 2) (0 + 1) [] [] [] []).hostTimersLive ∧
    lookupA (((timerState none createEventQueue 1 (some [(100, 0)])
        (setA (setA (setA (setA [] 0 ⟨0, [(0, ⟨1, 5, 0⟩)]⟩) 0
            ⟨0, [(0, ⟨1, 5, 0⟩), (0 + 1, ⟨1, 6, 0 + 1⟩)]⟩) 0
          ⟨0, [(0 + 1, ⟨1, 6, 0 + 1⟩)]⟩) 0 ⟨0, []⟩)
        (setA (setA [] 0 0) (0 + 1) 0)
        [] (0 + 1) (0 + 2) (0 + 1) [] [] [] []).currentTimers).getD [])
      100 = some 0) :=
  ⟨by decide,
    c6_timer_group_sharing none createEventQueue 1 5 6 100 0 0 0 [] [] []
      [] [] [] [] (by decide)⟩

/-- Intermediate states of the C6 counterexample, built by running the
operations themselves: schedule one timer with delay 100, then cancel
it. -/
def exC6s0 : EngineState :=
  { baseState with
      currentEventQueue := some createEventQueue
      currentInstance := some 1 }

def exC6s1 : EngineState :=
  match ctxSetTimeout 5 100 exC6s0 with
  | .ok (s, _) => s
  | .error _ => exC6s0

def exC6s2 : EngineState :=
  match ctxClearTimeout 0 exC6s1 with
  | .ok s => s
  | .error _ => exC6s1

/-- Counterexample to claim C6 as stated: after the single timer of the
delay-100 group is cancelled, the group's timer map is empty (the last
entry was cancelled) and its host timer is cancelled, yet the TimerGroup
is still present in the per-cycle delay map `currentTimers` under delay
100 — contradicting "the TimerGroup for a delay is removed (including
from the per-cycle delay map) once its last timer entry is cancelled". -/
theorem c6_counterexample :
    ctxSetTimeout 5 100 exC6s0 = .ok (exC6s1, 0) ∧
    ctxClearTimeout 0 exC6s1 = .ok (exC6s2) ∧
    (lookupA exC6s2.groups 0).map TimerGroup.timers = some [] ∧
    exC6s2.hostTimersLive = [] ∧
    lookupA ((exC6s2.currentTimers).getD []) 100 = some 0 :=
  ⟨rfl, rfl, rfl, rfl, rfl⟩

/-- `true` exactly when a context call completed without faulting. -/
def isOkB : Except Fault Bool → Bool
  | .ok _ => true
  | .error _ => false

/-- Claim C8, amended: every change to the ownership slot triggers one
notification pass over every instance registered in
`ownershipChangeListeners`, each listener being notified with its own
instance set as the current instance.  During the passes triggered by
`requestOwnership` and `releaseOwnership` a listener's own
`hasOwnership()` call succeeds (the event queue of the enclosing cycle is
still current).  During the pass triggered by release-on-unmount,
however, the current event queue has already been torn down (the
`onUnmount` cycle's `finally` cleared it, and unmount runs outside any
dispatch cycle), so a listener calling `hasOwnership()` faults with the
used-outside-event-cycle error instead of succeeding. -/
theorem c8_ownership_change_notification
    (sa : EngineState) (q : EventQueue) (i : Nat)
    (sb : EngineState) (q2 : EventQueue) (j : Nat)
    (sc : EngineState) (inst : BInstance)
    (hq1 : sa.currentEventQueue = some q) (hi1 : sa.currentInstance = some i)
    (ho1 : sa.currentOwner = none)
    (hq2 : sb.currentEventQueue = some q2) (hi2 : sb.currentInstance = some j)
    (ho2 : sb.currentOwner = some j)
    (ho3 : sc.currentOwner = some inst.iid)
    (hc3 : inst.onUnmount = true ∨ sc.currentEventQueue = none) :
    (∃ st tr, ctxRequestOwnership sa = .ok (st, tr, true) ∧
      tr.map Prod.fst = sa.ownershipChangeListeners.map some ∧
      ∀ p ∈ tr, isOkB p.2 = true) ∧
    (∃ st tr, ctxReleaseOwnership sb = .ok (st, tr, false) ∧
      tr.map Prod.fst = sb.ownershipChangeListeners.map some ∧
      ∀ p ∈ tr, isOkB p.2 = true) ∧
    (unmountEventResponder inst sc).2 =
      sc.ownershipChangeListeners.map
        (fun l => (some l, Except.error Fault.usedOutsideEventCycle)) := by
  refine ⟨?_, ?_, ?_⟩
  · have hv : validateResponderContext sa = .ok (q, i) := by
      unfold validateResponderContext
      rw [hq1, hi1]
    refine ⟨(triggerOwnershipListeners { sa with currentOwner := some i }).1,
      (triggerOwnershipListeners { sa with currentOwner := some i }).2,
      ?_, ?_, ?_⟩
    · simp only [ctxRequestOwnership, hv, ho1]
      rfl
    · simp [triggerOwnershipListeners]
    · intro p hp
      simp only [triggerOwnershipListeners, List.mem_map] at hp
      obtain ⟨l, _, hpe⟩ := hp
      cases hpe
      simp [isOkB, ctxHasOwnership, validateResponderContext, hq1]
  · have hv : validateResponderContext sb = .ok (q2, j) := by
      unfold validateResponderContext
      rw [hq2, hi2]
    refine ⟨(triggerOwnershipListeners { sb with currentOwner := none }).1,
      (triggerOwnershipListeners { sb with currentOwner := none }).2,
      ?_, ?_, ?_⟩
    · simp only [ctxReleaseOwnership, hv]
      rw [if_neg (not_not_intro ho2)]
    · simp [triggerOwnershipListeners]
    · intro p hp
      simp only [triggerOwnershipListeners, List.mem_map] at hp
      obtain ⟨l, _, hpe⟩ := hp
      cases hpe
      simp [isOkB, ctxHasOwnership, validateResponderContext, hq2]
  · by_cases hu : inst.onUnmount = true
    · simp [unmountEventResponder, hu, ho3, triggerOwnershipListeners,
        ctxHasOwnership, validateResponderContext]
    · have hqn : sc.currentEventQueue = none := by
        rcases hc3 with hc | hc
        · exact absurd hc hu
        · exact hc
      simp [unmountEventResponder, hu, ho3, hqn, triggerOwnershipListeners,
        ctxHasOwnership, validateResponderContext]

def exC8Sa : EngineState :=
  { baseState with
      currentEventQueue := some createEventQueue
      currentInstance := some 1
      ownershipChangeListeners := [2] }

def exC8Sc : EngineState :=
  { baseState with
      currentOwner := some 7
      ownershipChangeListeners := [5] }

def exUnmountInst : BInstance :=
  { iid := 7, onOwnershipChange := true, onUnmount := false }

theorem c8_ownership_change_notification_witness :
    (exC8Sa.currentEventQueue = some createEventQueue ∧
      exC8Sa.currentInstance = some 1 ∧ exC8Sa.currentOwner = none ∧
      exC7State.currentEventQueue = some createEventQueue ∧
      exC7State.currentInstance = some 1 ∧
      exC7State.currentOwner = some 1 ∧
      exC8Sc.currentOwner = some exUnmountInst.iid ∧
      (exUnmountInst.onUnmount = true ∨
        exC8Sc.currentEventQueue = none)) ∧
    ((∃ st tr, ctxRequestOwnership exC8Sa = .ok (st, tr, true) ∧
      tr.map Prod.fst = exC8Sa.ownershipChangeListeners.map some ∧
      ∀ p ∈ tr, isOkB p.2 = true) ∧
    (∃ st tr, ctxReleaseOwnership exC7State = .ok (st, tr, false) ∧
      tr.map Prod.fst = exC7State.ownershipChangeListeners.map some ∧
      ∀ p ∈ tr, isOkB p.2 = true) ∧
    (unmountEventResponder exUnmountInst exC8Sc).2 =
      exC8Sc.ownershipChangeListeners.map
        (fun l => (some l, Except.error Fault.usedOutsideEventCycle))) :=
  ⟨⟨rfl, rfl, rfl, rfl, rfl, rfl, rfl, Or.inr rfl⟩,
    c8_ownership_change_notification exC8Sa createEventQueue 1 exC7State
      createEventQueue 1 exC8Sc exUnmountInst rfl rfl rfl rfl rfl rfl rfl
      (Or.inr rfl)⟩

/-- Counterexample to claim C8 as stated: unmounting an instance that
holds ownership triggers the notification pass, but the listener runs
with no current event queue, so the `hasOwnership()` call the claim says
"does not fault" returns the used-outside-event-cycle fault. -/
theorem c8_counterexample :
    exC8Sc.currentOwner = some exUnmountInst.iid ∧
      (unmountEventResponder exUnmountInst exC8Sc).2 =
        [(some 5, Except.error Fault.usedOutsideEventCycle)] :=
  ⟨rfl, rfl⟩

theorem setA_lookup_eq {κ α : Type} [DecidableEq κ] (m : List (κ × α))
    (k : κ) (v : α) (h : lookupA m k = some v) : setA m k v = m := by
  induction m with
  | nil => simp [lookupA] at h
  | cons p rest ih =>
    obtain ⟨k0, v0⟩ := p
    by_cases hk : k0 = k
    · subst hk
      have hv : v0 = v := by simpa [lookupA] using h
      simp [setA, hv]
    · have hk' : ¬ k = k0 := fun hc => hk hc.symm
      simp only [lookupA, if_neg hk'] at h
      simp [setA, hk, ih h]

theorem mem_addUniq_self {α : Type} [DecidableEq α] (l : List α) (a : α) :
    a ∈ addUniq l a := by
  unfold addUniq
  split
  · assumption
  · simp

theorem mem_addUniq_of_mem {α : Type} [DecidableEq α] (l : List α) (a b : α)
    (h : a ∈ l) : a ∈ addUniq l b := by
  unfold addUniq
  split
  · exact h
  · exact List.mem_append_left _ h

theorem addUniq_of_mem {α : Type} [DecidableEq α] (l : List α) (a : α)
    (h : a ∈ l) : addUniq l a = l := by
  simp [addUniq, h]

theorem bucketAdd_self_mem (reg : List (String × List Nat)) (n : String)
    (iid : Nat) : iid ∈ (lookupA (bucketAdd reg n iid) n).getD [] := by
  unfold bucketAdd
  rw [lookupA_setA_self]
  simpa using mem_addUniq_self _ _

theorem bucketAdd_mem_preserved (reg : List (String × List Nat))
    (n n' : String) (iid j : Nat) (h : iid ∈ (lookupA reg n).getD []) :
    iid ∈ (lookupA (bucketAdd reg n' j) n).getD [] := by
  by_cases hn : n = n'
  · subst hn
    unfold bucketAdd
    rw [lookupA_setA_self]
    simpa using mem_addUniq_of_mem _ _ _ h
  · unfold bucketAdd
    rw [lookupA_setA_ne _ _ _ _ hn]
    exact h

theorem bucketAdd_of_mem (reg : List (String × List Nat)) (n : String)
    (iid : Nat) (h : iid ∈ (lookupA reg n).getD []) :
    bucketAdd reg n iid = reg := by
  cases hb : lookupA reg n with
  | none => simp [hb] at h
  | some b =>
    have hmem : iid ∈ b := by simpa [hb] using h
    unfold bucketAdd
    rw [hb, Option.getD_some, addUniq_of_mem _ _ hmem]
    exact setA_lookup_eq _ _ _ hb

theorem addRootStatic_cons (iid : Nat) (ro : Option (List String))
    (reg : List (String × List Nat)) (t : EventTypeSpec)
    (rest : List EventTypeSpec) :
    addRootEventTypesForComponentInstance iid ro reg (t :: rest) =
      addRootEventTypesForComponentInstance iid
        (some (addUniq (ro.getD []) (typeName t)))
        (bucketAdd reg (typeName t) iid) rest := rfl

theorem addRootStatic_noop (iid : Nat) (roots : List String) :
    ∀ (reg : List (String × List Nat)) (types : List EventTypeSpec),
      (∀ t ∈ types, typeName t ∈ roots ∧
        iid ∈ (lookupA reg (typeName t)).getD []) →
      addRootEventTypesForComponentInstance iid (some roots) reg types =
        (some roots, reg) := by
  intro reg types
  induction types generalizing reg with
  | nil =>
    intro _
    rfl
  | cons t rest ih =>
    intro h
    obtain ⟨h1, h2⟩ := h t (List.mem_cons_self _ _)
    rw [addRootStatic_cons, Option.getD_some, addUniq_of_mem _ _ h1,
      bucketAdd_of_mem _ _ _ h2]
    exact ih reg (fun t' ht' => h t' (List.mem_cons_of_mem _ ht'))

theorem addRootStatic_root_mem_preserved (iid : Nat)
    (types : List EventTypeSpec) :
    ∀ (ro : Option (List String)) (reg : List (String × List Nat))
      (n : String), n ∈ ro.getD [] →
      n ∈ ((addRootEventTypesForComponentInstance iid ro reg types).1.getD
        []) := by
  induction types with
  | nil =>
    intro ro reg n h
    exact h
  | cons t rest ih =>
    intro ro reg n h
    rw [addRootStatic_cons]
    exact ih _ _ n (by simpa using mem_addUniq_of_mem _ _ _ h)

theorem addRootStatic_bucket_mem_preserved (iid : Nat)
    (types : List EventTypeSpec) :
    ∀ (ro : Option (List String)) (reg : List (String × List Nat))
      (n : String) (j : Nat), j ∈ (lookupA reg n).getD [] →
      j ∈ (lookupA
        (addRootEventTypesForComponentInstance iid ro reg types).2 n).getD
        [] := by
  induction types with
  | nil =>
    intro _ _ _ _ h
    exact h
  | cons t rest ih =>
    intro ro reg n j h
    rw [addRootStatic_cons]
    exact ih _ _ n j (bucketAdd_mem_preserved _ _ _ _ _ h)

theorem addRootStatic_mem (iid : Nat) (types : List EventTypeSpec) :
    ∀ (ro : Option (List String)) (reg : List (String × List Nat))
      (t : EventTypeSpec), t ∈ types →
      typeName t ∈
        ((addRootEventTypesForComponentInstance iid ro reg types).1.getD
          []) ∧
      iid ∈ (lookupA (addRootEventTypesForComponentInstance iid ro reg
        types).2 (typeName t)).getD [] := by
  induction types with
  | nil =>
    intro _ _ t ht
    simp at ht
  | cons t' rest ih =>
    intro ro reg t ht
    rw [addRootStatic_cons]
    rcases List.mem_cons.mp ht with h | h
    · subst h
      constructor
      · exact addRootStatic_root_mem_preserved iid rest _ _ _
          (by simpa using mem_addUniq_self _ _)
      · exact addRootStatic_bucket_mem_preserved iid rest _ _ _ _
          (bucketAdd_self_mem _ _ _)
    · exact ih _ _ t h

theorem addRootStatic_roots_isSome (iid : Nat) (types : List EventTypeSpec) :
    ∀ (l : List String) (reg : List (String × List Nat)),
      ∃ r, (addRootEventTypesForComponentInstance iid (some l) reg
        types).1 = some r := by
  induction types with
  | nil =>
    intro l _
    exact ⟨l, rfl⟩
  | cons t rest ih =>
    intro l reg
    rw [addRootStatic_cons]
    exact ih _ _

theorem addRootStatic_idem (iid : Nat) (ro : Option (List String))
    (reg : List (String × List Nat)) (types : List EventTypeSpec) :
    addRootEventTypesForComponentInstance iid
      (addRootEventTypesForComponentInstance iid ro reg types).1
      (addRootEventTypesForComponentInstance iid ro reg types).2 types =
      addRootEventTypesForComponentInstance iid ro reg types := by
  cases types with
  | nil => rfl
  | cons t rest =>
    obtain ⟨r, hr⟩ : ∃ r, (addRootEventTypesForComponentInstance iid ro reg
        (t :: rest)).1 = some r := by
      rw [addRootStatic_cons]
      exact addRootStatic_roots_isSome iid rest _ _
    have hmem := addRootStatic_mem iid (t :: rest) ro reg
    rw [hr]
    rw [addRootStatic_noop iid r
      (addRootEventTypesForComponentInstance iid ro reg (t :: rest)).2
      (t :: rest) (fun t' ht' => by
        obtain ⟨hm1, hm2⟩ := hmem t' ht'
        rw [hr] at hm1
        exact ⟨by simpa using hm1, hm2⟩)]
    rw [← hr]

/-- Claim C10, amended: the static registration entry point
(`addRootEventTypesForComponentInstance`) performs no duplicate check and
never faults (it is a total function into a result state, with no
`invariant`, unlike the context path whose duplicate registration
faults).  Registering a type already present in the instance's
`rootEventTypes` set leaves that set unchanged, and when the instance is
additionally already in the registry's bucket for that type — as it is
whenever the type got there through either registration path and was not
since removed — the registry is unchanged too.  The operation is
idempotent: running it twice from any starting point equals running it
once.  (On a state where the type is in the instance's set but the
instance is missing from the bucket, the registry does change: see the
counterexample.) -/
theorem c10_static_registration_idempotent (iid : Nat)
    (roots : List String) (reg : List (String × List Nat))
    (types : List EventTypeSpec) (ro2 : Option (List String))
    (reg2 : List (String × List Nat)) (types2 : List EventTypeSpec)
    (h : ∀ t ∈ types, typeName t ∈ roots ∧
      iid ∈ (lookupA reg (typeName t)).getD []) :
    addRootEventTypesForComponentInstance iid (some roots) reg types =
      (some roots, reg) ∧
    addRootEventTypesForComponentInstance iid
      (addRootEventTypesForComponentInstance iid ro2 reg2 types2).1
      (addRootEventTypesForComponentInstance iid ro2 reg2 types2).2
      types2 =
      addRootEventTypesForComponentInstance iid ro2 reg2 types2 :=
  ⟨addRootStatic_noop iid roots reg types h,
    addRootStatic_idem iid ro2 reg2 types2⟩

theorem c10_static_registration_idempotent_witness :
    (∀ t ∈ [EventTypeSpec.str "press"], typeName t ∈ ["press"] ∧
      1 ∈ (lookupA [("press", [1])] (typeName t)).getD []) ∧
    (addRootEventTypesForComponentInstance 1 (some ["press"])
        [("press", [1])] [EventTypeSpec.str "press"] =
      (some ["press"], [("press", [1])]) ∧
    addRootEventTypesForComponentInstance 1
      (addRootEventTypesForComponentInstance 1 none []
        [EventTypeSpec.str "press"]).1
      (addRootEventTypesForComponentInstance 1 none []
        [EventTypeSpec.str "press"]).2 [EventTypeSpec.str "press"] =
      addRootEventTypesForComponentInstance 1 none []
        [EventTypeSpec.str "press"]) :=
  ⟨by decide,
    c10_static_registration_idempotent 1 ["press"] [("press", [1])]
      [EventTypeSpec.str "press"] none [] [EventTypeSpec.str "press"]
      (by decide)⟩

/-- Counterexample to claim C10 as stated: registering a type that is
already present in the instance's `rootEventTypes` set but whose registry
bucket does not contain the instance (the state left behind by an
unmount, which removes the instance from the buckets but not from its
own set) leaves the set unchanged yet *changes* the RootEventRegistry —
the instance is re-added to the bucket — so the operation does not leave
the registry unchanged in general. -/
theorem c10_counterexample :
    typeName (EventTypeSpec.str "press") ∈ ["press"] ∧
    addRootEventTypesForComponentInstance 1 (some ["press"])
        [] [EventTypeSpec.str "press"] =
      (some ["press"], [("press", [1])]) ∧
    ([] : List (String × List Nat)) ≠ [("press", [1])] :=
  ⟨by decide, by decide, by decide⟩

end ResponderSystem
